import Mathlib

/-!
Shallow embedding of the Maala web application's subscription service
(`server/src/services/subscriptionService.ts`), its renewal route handler
(`server/src/routes/subscription.ts`), the geolocation utilities
(`server/src/utils/geolocation.ts`) and the local-seller service
(`server/src/services/LocalSellerService.ts`), together with theorems about
the behaviours documented in the design spec.

The MongoDB collection of subscription documents is modelled as a list; the
current wall-clock time (`new Date()`), which the services read implicitly,
is passed as an explicit integer timestamp (milliseconds); the `date-fns`
calendar function `addMonths` is an external library and is passed as an
explicit function parameter.
-/

namespace Maala

/-- Timestamps, as in JavaScript `Date.getTime()` (milliseconds since epoch). -/
abbrev Time := Int

/-- The `type` field of a subscription document: `"seller" | "buyer"`. -/
inductive SubType where
  | seller
  | buyer
deriving DecidableEq, Repr

/-- The `status` field of a subscription document:
`"active" | "inactive" | "trial"`. -/
inductive SubStatus where
  | active
  | inactive
  | trial
deriving DecidableEq, Repr

/-- The `status` field of a payment-history entry:
`"success" | "failed" | "pending"`. -/
inductive PaymentStatus where
  | success
  | failed
  | pending
deriving DecidableEq, Repr

/-- One entry of `paymentHistory` (model `subscription.ts`). -/
structure Payment where
  amount : Rat
  date : Time
  transactionId : String
  status : PaymentStatus
deriving DecidableEq, Repr

/-- A subscription document (interface `ISubscription` in
`server/src/models/subscription.ts`). -/
structure Subscription where
  userId : String
  type : SubType
  status : SubStatus
  startDate : Time
  endDate : Time
  isTrial : Bool
  trialEndDate : Option Time
  paymentHistory : List Payment
  autoRenew : Bool
  lastPaymentDate : Option Time
  nextPaymentDate : Option Time
deriving DecidableEq, Repr

/-- The subscription collection. -/
abbrev Store := List Subscription

/-- The Mongo filter `{ userId, type }` used by `findOne` in
`renewSubscription` and `cancelSubscription`. -/
def matchKey (u : String) (t : SubType) (s : Subscription) : Bool :=
  decide (s.userId = u ∧ s.type = t)

/-- The Mongo filter used by `isSubscriptionActive`:
`{ userId, type, status: { $in: ["active","trial"] }, endDate: { $gt: new Date() } }`. -/
def activeQuery (now : Time) (u : String) (t : SubType) (s : Subscription) : Bool :=
  decide (s.userId = u ∧ s.type = t ∧
    (s.status = SubStatus.active ∨ s.status = SubStatus.trial) ∧ now < s.endDate)

/-- The function `SubscriptionService.isSubscriptionActive`: `findOne` on the active filter,
then `!!subscription`. -/
def isSubscriptionActive (store : Store) (now : Time) (u : String) (t : SubType) : Bool :=
  (store.find? (activeQuery now u t)).isSome

/-- Mongoose `findOne` followed by mutation and `doc.save()`: the first
document matching `p` is replaced by its image under `f`; all other documents
are untouched. -/
def updateFirst {α : Type} (p : α → Bool) (f : α → α) : List α → List α
  | [] => []
  | x :: rest => if p x then f x :: rest else x :: updateFirst p f rest

/-- The field mutations performed by `SubscriptionService.renewSubscription`
on the found document before `save()`. -/
def renewUpdate (addMonths : Time → Nat → Time) (now : Time) (amount : Rat)
    (transactionId : String) (s : Subscription) : Subscription :=
  { s with
    status := SubStatus.active
    isTrial := false
    endDate := addMonths now 1
    lastPaymentDate := some now
    nextPaymentDate := some (addMonths now 1)
    paymentHistory := s.paymentHistory ++
      [{ amount := amount, date := now, transactionId := transactionId,
         status := PaymentStatus.success }] }

/-- The function `SubscriptionService.renewSubscription`: `findOne { userId, type }`, throw
`"Subscription not found"` when absent, otherwise mutate and save. `addMonths`
(from `date-fns`) is external and passed as a parameter; `now` is the wall
clock read by `new Date()`. -/
def renewSubscription (addMonths : Time → Nat → Time) (now : Time) (store : Store)
    (u : String) (t : SubType) (amount : Rat) (transactionId : String) :
    Except String Store :=
  match store.find? (matchKey u t) with
  | none => Except.error "Subscription not found"
  | some _ =>
      Except.ok (updateFirst (matchKey u t)
        (renewUpdate addMonths now amount transactionId) store)

/-- The field mutation performed by `SubscriptionService.cancelSubscription`. -/
def cancelUpdate (s : Subscription) : Subscription :=
  { s with autoRenew := false }

/-- The function `SubscriptionService.cancelSubscription`: `findOne { userId, type }`, throw
`"Subscription not found"` when absent, otherwise set `autoRenew = false` and
save. -/
def cancelSubscription (store : Store) (u : String) (t : SubType) :
    Except String Store :=
  match store.find? (matchKey u t) with
  | none => Except.error "Subscription not found"
  | some _ => Except.ok (updateFirst (matchKey u t) cancelUpdate store)

/-- The `updateMany` filter of `SubscriptionService.updateSubscriptionStatus`:
`{ endDate: { $lt: now }, status: { $in: ["active","trial"] } }`. -/
def sweepCondition (now : Time) (s : Subscription) : Bool :=
  decide (s.endDate < now ∧
    (s.status = SubStatus.active ∨ s.status = SubStatus.trial))

/-- Effect of the sweep's `updateMany` on a single document. -/
def sweepOne (now : Time) (s : Subscription) : Subscription :=
  if sweepCondition now s then { s with status := SubStatus.inactive } else s

/-- The function `SubscriptionService.updateSubscriptionStatus`: the expiry sweep, an
`updateMany` over the whole collection. -/
def updateSubscriptionStatus (now : Time) (store : Store) : Store :=
  store.map (sweepOne now)

/-- Outcome of the `POST /renew` Express handler. -/
inductive HandlerResult where
  | badRequest (msg : String)
  | serverError (msg : String)
  | ok (store : Store)
deriving DecidableEq, Repr

/-- The `POST /renew` handler in `server/src/routes/subscription.ts`. The JS
guard is `if (!type || !amount || !transactionId) return 400`; with `type`
present and well-formed (as in the claims considered here), a number is falsy
exactly when it is `0` and a string exactly when it is `""`. Service errors
are mapped to a 500 response. -/
def renewHandler (addMonths : Time → Nat → Time) (now : Time) (store : Store)
    (userId : String) (t : SubType) (amount : Rat) (transactionId : String) :
    HandlerResult :=
  if amount = 0 ∨ transactionId = "" then
    HandlerResult.badRequest "Missing required fields"
  else
    match renewSubscription addMonths now store userId t amount transactionId with
    | Except.error _ => HandlerResult.serverError "Failed to renew subscription"
    | Except.ok store2 => HandlerResult.ok store2

/-- A concrete stand-in for `date-fns`'s `addMonths`, used only to instantiate
theorems at concrete inputs (30-day months in milliseconds). -/
def addMonthsConst (d : Time) (m : Nat) : Time :=
  d + 2592000000 * m

/-- A concrete subscription document used to instantiate theorems. -/
def sub1 : Subscription :=
  { userId := "u1", type := SubType.seller, status := SubStatus.trial,
    startDate := 0, endDate := 1000, isTrial := true, trialEndDate := some 1000,
    paymentHistory := [], autoRenew := true,
    lastPaymentDate := none, nextPaymentDate := none }

/-- Degrees to radians (`toRad` in geolocation.ts). JavaScript floating-point
numbers are modelled as exact reals. -/
noncomputable def toRad (degrees : Real) : Real :=
  degrees * (Real.pi / 180)

/-- JavaScript's `Math.atan2(y, x)`, by cases on the signs of the arguments. -/
noncomputable def atan2 (y x : Real) : Real :=
  if 0 < x then Real.arctan (y / x)
  else if x < 0 ∧ 0 ≤ y then Real.arctan (y / x) + Real.pi
  else if x < 0 ∧ y < 0 then Real.arctan (y / x) - Real.pi
  else if x = 0 ∧ 0 < y then Real.pi / 2
  else if x = 0 ∧ y < 0 then -(Real.pi / 2)
  else 0

/-- The intermediate value `a` of the Haversine computation in
`calculateDistance`. -/
noncomputable def haversineA (lat1 lon1 lat2 lon2 : Real) : Real :=
  Real.sin (toRad (lat2 - lat1) / 2) * Real.sin (toRad (lat2 - lat1) / 2) +
    Real.cos (toRad lat1) * Real.cos (toRad lat2) *
      Real.sin (toRad (lon2 - lon1) / 2) * Real.sin (toRad (lon2 - lon1) / 2)

/-- The function `calculateDistance` (geolocation.ts): Haversine distance with Earth radius
`R = 6371` km, `c = 2 * atan2(sqrt a, sqrt (1 - a))`, result `R * c`. -/
noncomputable def calculateDistance (lat1 lon1 lat2 lon2 : Real) : Real :=
  6371 * (2 * atan2 (Real.sqrt (haversineA lat1 lon1 lat2 lon2))
    (Real.sqrt (1 - haversineA lat1 lon1 lat2 lon2)))

/-- The function `isWithinRadius` (geolocation.ts): the returned JS boolean is modelled as
the corresponding proposition. -/
noncomputable def isWithinRadius (pointLat pointLon centerLat centerLon radius : Real) : Prop :=
  calculateDistance pointLat pointLon centerLat centerLon ≤ radius

/-- The function `calculateDeliveryCost` (geolocation.ts). JS numbers are modelled as exact
rationals here (every branch is plain arithmetic); `Math.round` is
round-half-up, which is Mathlib's `round`; the JS default value `50` of
`baseDeliveryCost` is passed explicitly at every use below. -/
def calculateDeliveryCost (distance freeDeliveryRadius : Rat)
    (baseDeliveryCost : Rat) : Rat :=
  if distance ≤ freeDeliveryRadius then 0
  else baseDeliveryCost + ((round ((distance - freeDeliveryRadius) * 5) : Int) : Rat)

/-- A coordinate pair, as the `{latitude, longitude}` objects of
`calculateOptimalRoute` and `calculateRouteDistance`. -/
structure GeoPoint where
  latitude : Real
  longitude : Real

/-- Distance between two points, as called inside `calculateOptimalRoute` and
`calculateRouteDistance`. -/
noncomputable def pointDist (p q : GeoPoint) : Real :=
  calculateDistance p.latitude p.longitude q.latitude q.longitude

/-- The inner scan of `calculateOptimalRoute`'s while-loop: `i` is the index
of the next element of the remaining list in the original `unvisited` array,
`best` the current `nearestIndex`, and the current `minDistance` is `some m`
(`none` models the initial `Infinity`, which every real distance beats). The
index is updated only on a strictly smaller distance, so ties keep the
earlier index. The distance function is a parameter so that the scan can be
stated for any distance. -/
noncomputable def findNearestAux {α : Type} (dist : α → Real) :
    List α → Nat → Nat → Option Real → Nat
  | [], _, best, _ => best
  | x :: rest, i, _, none => findNearestAux dist rest (i + 1) i (some (dist x))
  | x :: rest, i, best, some m =>
      if dist x < m then findNearestAux dist rest (i + 1) i (some (dist x))
      else findNearestAux dist rest (i + 1) best (some m)

/-- Index of the nearest element of `l` (first one on ties), as computed by
the scan starting from `nearestIndex = 0`, `minDistance = Infinity`. -/
noncomputable def findNearestIdx {α : Type} (dist : α → Real) (l : List α) : Nat :=
  findNearestAux dist l 0 0 none

/-- The while-loop of `calculateOptimalRoute`: pick the nearest unvisited
point, append it to the route, remove it from `unvisited` (`splice`), repeat.
The scan's index is always in range (proved below), so the `else` branch is
never taken. -/
noncomputable def routeLoop {α : Type} (dist : α → α → Real) (current : α)
    (unvisited : List α) : List α :=
  match unvisited with
  | [] => []
  | x :: rest =>
      if h : findNearestIdx (dist current) (x :: rest) < (x :: rest).length then
        (x :: rest).get ⟨findNearestIdx (dist current) (x :: rest), h⟩ ::
          routeLoop dist
            ((x :: rest).get ⟨findNearestIdx (dist current) (x :: rest), h⟩)
            ((x :: rest).eraseIdx (findNearestIdx (dist current) (x :: rest)))
      else []
termination_by unvisited.length
decreasing_by
  simp only [List.length_eraseIdx_of_lt h]
  omega

/-- The function `calculateOptimalRoute` (geolocation.ts): inputs of length at most 2 are
returned unchanged; otherwise the nearest-neighbour loop starts from the
first input point. -/
noncomputable def calculateOptimalRoute (points : List GeoPoint) : List GeoPoint :=
  if points.length ≤ 2 then points
  else
    match points with
    | [] => []
    | p :: rest => p :: routeLoop pointDist p rest

/-- The function `calculateRouteDistance` (geolocation.ts): sum of the distances of
consecutive points (the source's left-to-right running sum; real addition is
associative). -/
noncomputable def calculateRouteDistance : List GeoPoint → Real
  | [] => 0
  | [_] => 0
  | p :: q :: rest => pointDist p q + calculateRouteDistance (q :: rest)

/-- Index `j` points at an element of `l` of minimum `dist`, and every
strictly earlier index has strictly larger `dist` (the scan only moves on a
strictly smaller distance, so ties keep the earliest index). -/
def IsFirstMin {α : Type} (dist : α → Real) (l : List α) (j : Nat) : Prop :=
  ∃ hj : j < l.length,
    (∀ (i : Nat) (hi : i < l.length), dist (l.get ⟨j, hj⟩) ≤ dist (l.get ⟨i, hi⟩))
    ∧ ∀ (i : Nat) (hi : i < l.length), i < j →
        dist (l.get ⟨j, hj⟩) < dist (l.get ⟨i, hi⟩)

/-- Modelled from the spec's words for the route claim: a nearest-neighbour
ordering from a current point. Each emitted point is an unvisited point of
minimum distance from the current one, and on equal distances the one with
the lowest index in the unvisited list is taken (every strictly earlier index
has strictly larger distance). -/
inductive NearestNeighborFrom {α : Type} (dist : α → α → Real) :
    α → List α → List α → Prop
  | nil (c : α) : NearestNeighborFrom dist c [] []
  | cons (c : α) (l : List α) (j : Nat) (hj : j < l.length) (rest : List α) :
      (∀ (i : Nat) (hi : i < l.length),
        dist c (l.get ⟨j, hj⟩) ≤ dist c (l.get ⟨i, hi⟩)) →
      (∀ (i : Nat) (hi : i < l.length), i < j →
        dist c (l.get ⟨j, hj⟩) < dist c (l.get ⟨i, hi⟩)) →
      NearestNeighborFrom dist (l.get ⟨j, hj⟩) (l.eraseIdx j) rest →
      NearestNeighborFrom dist c l (l.get ⟨j, hj⟩ :: rest)

/-- One review inside a local seller's `ratings.reviews` (model
`LocalSeller.ts`). -/
structure Review where
  userId : String
  rating : Rat
  comment : Option String
  createdAt : Time
deriving DecidableEq, Repr

/-- The `ratings` aggregate of a local seller: running average, count, and
the list of reviews. -/
structure Ratings where
  average : Rat
  count : Nat
  reviews : List Review
deriving DecidableEq, Repr

/-- The slice of a `LocalSeller` document touched by `addReview`: its id and
its ratings. The document's many other fields (business details, address,
preferences, products, statuses) are neither read nor written by `addReview`
and are not modelled. -/
structure LocalSeller where
  id : String
  ratings : Ratings
deriving DecidableEq, Repr

/-- The mutations `LocalSellerService.addReview` performs on the found seller
before `save()`: running average update, count increment, review push. JS
numbers are modelled as exact rationals. -/
def addReviewUpdate (now : Time) (userId : String) (rating : Rat)
    (comment : Option String) (s : LocalSeller) : LocalSeller :=
  { s with ratings :=
      { average := (s.ratings.average * (s.ratings.count : Rat) + rating) /
          ((s.ratings.count : Rat) + 1)
        count := s.ratings.count + 1
        reviews := s.ratings.reviews ++
          [{ userId := userId, rating := rating, comment := comment,
             createdAt := now }] } }

/-- The function `LocalSellerService.addReview`: `findById(sellerId)`, throw
`"Seller not found"` when absent, otherwise mutate the ratings and save. -/
def addReview (now : Time) (sellers : List LocalSeller) (sellerId userId : String)
    (rating : Rat) (comment : Option String) : Except String (List LocalSeller) :=
  match sellers.find? (fun s => s.id == sellerId) with
  | none => Except.error "Seller not found"
  | some _ =>
      Except.ok (updateFirst (fun s => s.id == sellerId)
        (addReviewUpdate now userId rating comment) sellers)

/-- The ratings invariant: `count` is the number of reviews and, when there
is at least one review, `average` is the arithmetic mean of their ratings. -/
def RatingsInvariant (r : Ratings) : Prop :=
  r.count = r.reviews.length ∧
    (0 < r.count → r.average = (r.reviews.map Review.rating).sum / (r.count : Rat))

/-- A concrete seller document used to instantiate theorems. -/
def seller1 : LocalSeller :=
  { id := "s1",
    ratings :=
      { average := 4, count := 1,
        reviews := [{ userId := "u0", rating := 4, comment := none,
                      createdAt := 0 }] } }

/-- C1: `isSubscriptionActive` is true iff a subscription for `(userId, type)`
exists whose status is `active` or `trial` and whose `endDate` is strictly
later than now; in particular it is false whenever every subscription for the
key has `endDate` in the past, regardless of the stored status. -/
theorem isSubscriptionActive_characterisation
    (store : Store) (now : Time) (u : String) (t : SubType) :
    (isSubscriptionActive store now u t = true ↔
      ∃ s ∈ store, s.userId = u ∧ s.type = t ∧
        (s.status = SubStatus.active ∨ s.status = SubStatus.trial) ∧ now < s.endDate)
    ∧ ((∀ s ∈ store, s.userId = u → s.type = t → s.endDate ≤ now) →
        isSubscriptionActive store now u t = false) := by
  constructor
  · simp [isSubscriptionActive, List.find?_isSome, activeQuery]
  · intro h
    cases hb : isSubscriptionActive store now u t with
    | false => rfl
    | true =>
      exfalso
      have hiff : isSubscriptionActive store now u t = true ↔
          ∃ s ∈ store, s.userId = u ∧ s.type = t ∧
            (s.status = SubStatus.active ∨ s.status = SubStatus.trial) ∧ now < s.endDate := by
        simp [isSubscriptionActive, List.find?_isSome, activeQuery]
      obtain ⟨s, hs, hu, ht, _, hlt⟩ := hiff.mp hb
      exact absurd hlt (not_lt.mpr (h s hs hu ht))

/-- Witness for C1 at a concrete store: a lone expired-but-still-marked-active
subscription is reported inactive. -/
theorem isSubscriptionActive_characterisation_witness :
    isSubscriptionActive
      [{ userId := "u1", type := SubType.seller, status := SubStatus.active,
         startDate := 0, endDate := 5, isTrial := false, trialEndDate := none,
         paymentHistory := [], autoRenew := true,
         lastPaymentDate := none, nextPaymentDate := none }]
      10 "u1" SubType.seller = false :=
  (isSubscriptionActive_characterisation _ 10 "u1" SubType.seller).2 (by
    intro s hs _ _
    simp at hs
    subst hs
    decide)

/-- When `findOne` succeeds, find-and-save replaces exactly the first matching
document, at its index, and every earlier document fails the filter. -/
theorem find?_updateFirst {α : Type} (p : α → Bool) (f : α → α) (l : List α) :
    ∀ s, l.find? p = some s →
      ∃ i : Nat, ∃ hi : i < l.length, l.get ⟨i, hi⟩ = s ∧
        updateFirst p f l = l.set i (f s) := by
  induction l with
  | nil => intro s h; simp at h
  | cons x rest ih =>
    intro s h
    by_cases hp : p x
    · have hs : s = x := by
        rw [List.find?_cons_of_pos _ hp] at h
        exact (Option.some_inj.mp h).symm
      subst hs
      exact ⟨0, by simp, rfl, by simp [updateFirst, hp]⟩
    · rw [List.find?_cons_of_neg _ hp] at h
      obtain ⟨i, hi, hget, hupd⟩ := ih s h
      refine ⟨i + 1, by simpa using Nat.succ_lt_succ hi, ?_, ?_⟩
      · simpa using hget
      · simp [updateFirst, hp, hupd]

/-- C2: on an existing subscription, `renewSubscription` replaces it in place
with a document whose status is `active`, whose `isTrial` is cleared, whose
`endDate` is `addMonths now 1`, and whose payment history is the old history
with exactly one `success` entry `{amount, now, transactionId}` appended; on a
missing subscription it fails with "Subscription not found" (and, the result
being an error, no store is produced). -/
theorem renewSubscription_spec (addMonths : Time → Nat → Time) (now : Time)
    (store : Store) (u : String) (t : SubType) (amount : Rat) (txn : String) :
    (store.find? (matchKey u t) = none →
      renewSubscription addMonths now store u t amount txn =
        Except.error "Subscription not found")
    ∧ ∀ s, store.find? (matchKey u t) = some s →
        ∃ i : Nat, ∃ hi : i < store.length, store.get ⟨i, hi⟩ = s ∧
          renewSubscription addMonths now store u t amount txn =
            Except.ok (store.set i (renewUpdate addMonths now amount txn s)) ∧
          (renewUpdate addMonths now amount txn s).status = SubStatus.active ∧
          (renewUpdate addMonths now amount txn s).isTrial = false ∧
          (renewUpdate addMonths now amount txn s).endDate = addMonths now 1 ∧
          (renewUpdate addMonths now amount txn s).paymentHistory =
            s.paymentHistory ++
              [{ amount := amount, date := now, transactionId := txn,
                 status := PaymentStatus.success }] := by
  constructor
  · intro h
    simp [renewSubscription, h]
  · intro s h
    obtain ⟨i, hi, hget, hupd⟩ :=
      find?_updateFirst (matchKey u t) (renewUpdate addMonths now amount txn) store s h
    exact ⟨i, hi, hget, by simp [renewSubscription, h, hupd],
      rfl, rfl, rfl, rfl⟩

/-- Witness for C2 at a concrete store: the single subscription is renewed in
place, and the empty store yields the not-found error. -/
theorem renewSubscription_spec_witness :
    renewSubscription addMonthsConst 100 [sub1] "u1" SubType.seller 10 "tx1" =
      Except.ok [renewUpdate addMonthsConst 100 10 "tx1" sub1]
    ∧ renewSubscription addMonthsConst 100 [] "u1" SubType.seller 10 "tx1" =
      Except.error "Subscription not found" := by
  constructor
  · obtain ⟨i, hi, _, hok, _⟩ :=
      (renewSubscription_spec addMonthsConst 100 [sub1] "u1" SubType.seller 10 "tx1").2
        sub1 (by decide)
    have hi1 : i < 1 := by simpa using hi
    have hi0 : i = 0 := by omega
    subst hi0
    simpa using hok
  · exact (renewSubscription_spec addMonthsConst 100 [] "u1" SubType.seller 10 "tx1").1
      (by decide)

/-- One application of the sweep's per-document update is idempotent: a row it
deactivates no longer matches the filter. -/
theorem sweepOne_idem (now : Time) (s : Subscription) :
    sweepOne now (sweepOne now s) = sweepOne now s := by
  unfold sweepOne
  by_cases h : sweepCondition now s = true
  · rw [if_pos h]
    have h2 : sweepCondition now { s with status := SubStatus.inactive } = false := by
      simp [sweepCondition]
    rw [if_neg (by simp [h2])]
  · rw [if_neg h, if_neg h]

/-- C7: the expiry sweep is idempotent, acts pointwise on the collection, sets
the status to `inactive` exactly when `endDate < now` and the status was
`active` or `trial`, and changes no other field of any document. -/
theorem updateSubscriptionStatus_spec (now : Time) (store : Store) (s : Subscription) :
    updateSubscriptionStatus now (updateSubscriptionStatus now store) =
      updateSubscriptionStatus now store
    ∧ (∀ i : Nat, (updateSubscriptionStatus now store)[i]? =
        store[i]?.map (sweepOne now))
    ∧ (sweepOne now s).status =
        (if s.endDate < now ∧ (s.status = SubStatus.active ∨ s.status = SubStatus.trial)
         then SubStatus.inactive else s.status)
    ∧ (sweepOne now s).userId = s.userId
    ∧ (sweepOne now s).type = s.type
    ∧ (sweepOne now s).startDate = s.startDate
    ∧ (sweepOne now s).endDate = s.endDate
    ∧ (sweepOne now s).isTrial = s.isTrial
    ∧ (sweepOne now s).trialEndDate = s.trialEndDate
    ∧ (sweepOne now s).paymentHistory = s.paymentHistory
    ∧ (sweepOne now s).autoRenew = s.autoRenew
    ∧ (sweepOne now s).lastPaymentDate = s.lastPaymentDate
    ∧ (sweepOne now s).nextPaymentDate = s.nextPaymentDate := by
  refine ⟨?_, ?_, ?_, ?_, ?_, ?_, ?_, ?_, ?_, ?_, ?_, ?_, ?_⟩
  · have hfun : sweepOne now ∘ sweepOne now = sweepOne now :=
      funext (sweepOne_idem now)
    unfold updateSubscriptionStatus
    rw [List.map_map, hfun]
  · intro i
    simp [updateSubscriptionStatus, List.getElem?_map]
  · by_cases hc : s.endDate < now ∧
        (s.status = SubStatus.active ∨ s.status = SubStatus.trial)
    · simp [sweepOne, sweepCondition, hc]
    · simp [sweepOne, sweepCondition, hc]
  all_goals (unfold sweepOne; split <;> rfl)

/-- Replacing the element at index `i` by one on which the filter agrees does
not change whether `find?` succeeds. -/
theorem find?_isSome_set {α : Type} (p : α → Bool) (l : List α) :
    ∀ (i : Nat) (x : α) (hi : i < l.length),
      p x = p (l.get ⟨i, hi⟩) →
      ((l.set i x).find? p).isSome = (l.find? p).isSome := by
  induction l with
  | nil => intro i x hi; exact absurd hi (by simp)
  | cons a rest ih =>
    intro i x hi hx
    cases i with
    | zero =>
      have hx0 : p x = p a := hx
      by_cases hp : p a = true
      · rw [show (a :: rest).set 0 x = x :: rest from rfl,
          List.find?_cons_of_pos _ (hx0.trans hp), List.find?_cons_of_pos _ hp]
        rfl
      · have hpx : ¬ p x = true := by rw [hx0]; exact hp
        rw [show (a :: rest).set 0 x = x :: rest from rfl,
          List.find?_cons_of_neg _ hpx, List.find?_cons_of_neg _ hp]
    | succ n =>
      have hn : n < rest.length := by simpa using hi
      have hx1 : p x = p (rest.get ⟨n, hn⟩) := hx
      by_cases hp : p a = true
      · rw [show (a :: rest).set (n + 1) x = a :: rest.set n x from rfl,
          List.find?_cons_of_pos _ hp, List.find?_cons_of_pos _ hp]
      · rw [show (a :: rest).set (n + 1) x = a :: rest.set n x from rfl,
          List.find?_cons_of_neg _ hp, List.find?_cons_of_neg _ hp]
        exact ih n x hn hx1

/-- C8: on an existing subscription, `cancelSubscription` replaces it in place
with a document whose `autoRenew` is `false` and whose every other field is
unchanged, so `isSubscriptionActive` gives the same answer at every time as
before the cancellation; on a missing subscription it fails with
"Subscription not found". -/
theorem cancelSubscription_spec (store : Store) (u : String) (t : SubType) :
    (store.find? (matchKey u t) = none →
      cancelSubscription store u t = Except.error "Subscription not found")
    ∧ ∀ s, store.find? (matchKey u t) = some s →
        ∃ i : Nat, ∃ hi : i < store.length, store.get ⟨i, hi⟩ = s ∧
          cancelSubscription store u t = Except.ok (store.set i (cancelUpdate s)) ∧
          (cancelUpdate s).autoRenew = false ∧
          (cancelUpdate s).userId = s.userId ∧
          (cancelUpdate s).type = s.type ∧
          (cancelUpdate s).status = s.status ∧
          (cancelUpdate s).startDate = s.startDate ∧
          (cancelUpdate s).endDate = s.endDate ∧
          (cancelUpdate s).isTrial = s.isTrial ∧
          (cancelUpdate s).trialEndDate = s.trialEndDate ∧
          (cancelUpdate s).paymentHistory = s.paymentHistory ∧
          ∀ now, isSubscriptionActive (store.set i (cancelUpdate s)) now u t =
            isSubscriptionActive store now u t := by
  constructor
  · intro h
    simp [cancelSubscription, h]
  · intro s h
    obtain ⟨i, hi, hget, hupd⟩ :=
      find?_updateFirst (matchKey u t) cancelUpdate store s h
    refine ⟨i, hi, hget, by simp [cancelSubscription, h, hupd],
      rfl, rfl, rfl, rfl, rfl, rfl, rfl, rfl, rfl, ?_⟩
    intro now
    show ((store.set i (cancelUpdate s)).find? (activeQuery now u t)).isSome =
      (store.find? (activeQuery now u t)).isSome
    apply find?_isSome_set (activeQuery now u t) store i (cancelUpdate s) hi
    rw [hget]
    simp [activeQuery, cancelUpdate]

/-- Witness for C8 at a concrete store: the single subscription is cancelled in
place, and the empty store yields the not-found error. -/
theorem cancelSubscription_spec_witness :
    cancelSubscription [sub1] "u1" SubType.seller =
      Except.ok [cancelUpdate sub1]
    ∧ cancelSubscription [] "u1" SubType.seller =
      Except.error "Subscription not found" := by
  constructor
  · obtain ⟨i, hi, _, hok, _⟩ :=
      (cancelSubscription_spec [sub1] "u1" SubType.seller).2 sub1 (by decide)
    have hi1 : i < 1 := by simpa using hi
    have hi0 : i = 0 := by omega
    subst hi0
    simpa using hok
  · exact (cancelSubscription_spec [] "u1" SubType.seller).1 (by decide)

/-- C3: the `POST /renew` boundary rejects a zero amount and an empty
transaction id (JS falsiness) with a 400 "Missing required fields" without
touching the store, but a negative amount passes the truthiness guard: the
renewal succeeds and appends a `success` payment entry with the negative
amount, contradicting the claimed validation failure. -/
theorem renewHandler_validation_gap :
    renewHandler addMonthsConst 100 [sub1] "u1" SubType.seller (-5) "tx1" =
      HandlerResult.ok [renewUpdate addMonthsConst 100 (-5) "tx1" sub1]
    ∧ (renewUpdate addMonthsConst 100 (-5) "tx1" sub1).paymentHistory =
        sub1.paymentHistory ++
          [{ amount := -5, date := 100, transactionId := "tx1",
             status := PaymentStatus.success }]
    ∧ renewHandler addMonthsConst 100 [sub1] "u1" SubType.seller 0 "tx1" =
        HandlerResult.badRequest "Missing required fields"
    ∧ renewHandler addMonthsConst 100 [sub1] "u1" SubType.seller 10 "" =
        HandlerResult.badRequest "Missing required fields" := by
  refine ⟨?_, rfl, ?_, ?_⟩
  · simp [renewHandler, renewSubscription, updateFirst, sub1, matchKey]
  · simp [renewHandler]
  · simp [renewHandler]

/-- The Haversine intermediate value is symmetric in the two points. -/
theorem haversineA_symm (lat1 lon1 lat2 lon2 : Real) :
    haversineA lat2 lon2 lat1 lon1 = haversineA lat1 lon1 lat2 lon2 := by
  unfold haversineA
  rw [show lat1 - lat2 = -(lat2 - lat1) from by ring,
    show lon1 - lon2 = -(lon2 - lon1) from by ring,
    show toRad (-(lat2 - lat1)) = -toRad (lat2 - lat1) from by unfold toRad; ring,
    show toRad (-(lon2 - lon1)) = -toRad (lon2 - lon1) from by unfold toRad; ring,
    neg_div, neg_div, Real.sin_neg, Real.sin_neg]
  ring

/-- At equal points the Haversine intermediate value is `0`. -/
theorem haversineA_self (lat lon : Real) : haversineA lat lon lat lon = 0 := by
  unfold haversineA toRad
  simp

/-- The function `calculateDistance` of any point to itself is `0` (for arbitrary inputs,
valid or not: no branch of the code inspects the ranges). -/
theorem calculateDistance_self (lat lon : Real) :
    calculateDistance lat lon lat lon = 0 := by
  unfold calculateDistance
  rw [haversineA_self]
  rw [Real.sqrt_zero, show (1 : Real) - 0 = 1 from by ring, Real.sqrt_one]
  unfold atan2
  rw [if_pos (by norm_num : (0 : Real) < 1), zero_div, Real.arctan_zero]
  ring

/-- C5: for valid coordinates, `calculateDistance` is symmetric and the
distance of a point to itself is exactly `0` (in the exact-real model of the
floating-point arithmetic). -/
theorem calculateDistance_symm_and_self (lat1 lon1 lat2 lon2 : Real)
    (h1 : lat1 ∈ Set.Icc (-90 : Real) 90) (h2 : lon1 ∈ Set.Icc (-180 : Real) 180)
    (h3 : lat2 ∈ Set.Icc (-90 : Real) 90) (h4 : lon2 ∈ Set.Icc (-180 : Real) 180) :
    calculateDistance lat1 lon1 lat2 lon2 = calculateDistance lat2 lon2 lat1 lon1
    ∧ calculateDistance lat1 lon1 lat1 lon1 = 0 := by
  constructor
  · unfold calculateDistance
    rw [haversineA_symm]
  · exact calculateDistance_self lat1 lon1

/-- Witness for C5 at concrete valid coordinates. -/
theorem calculateDistance_symm_and_self_witness :
    calculateDistance 10 20 30 40 = calculateDistance 30 40 10 20
    ∧ calculateDistance 10 20 10 20 = 0 :=
  calculateDistance_symm_and_self 10 20 30 40
    (Set.mem_Icc.mpr (by norm_num)) (Set.mem_Icc.mpr (by norm_num))
    (Set.mem_Icc.mpr (by norm_num)) (Set.mem_Icc.mpr (by norm_num))

/-- C9: the geolocation utilities perform no range validation: at the invalid
latitude `200` they return ordinary numeric results (distance `0` from the
point to itself, and `isWithinRadius` holds for radius `0`) instead of failing;
and the empty list yields `[]` from `calculateOptimalRoute` and `0` from
`calculateRouteDistance`, not an error. -/
theorem geolocation_no_range_validation :
    calculateDistance 200 0 200 0 = 0
    ∧ isWithinRadius 200 0 200 0 0
    ∧ calculateOptimalRoute [] = []
    ∧ calculateRouteDistance [] = 0 := by
  refine ⟨calculateDistance_self 200 0, ?_, ?_, rfl⟩
  · unfold isWithinRadius
    rw [calculateDistance_self]
  · unfold calculateOptimalRoute
    simp

/-- C6: for non-negative distance and free radius with the default base cost
`50`, `calculateDeliveryCost` is `0` inside the free radius and
`50 + round (5 * (distance - freeRadius))` outside; it is never negative; and
`deliveryCost(3, 5) = 0` and `deliveryCost(10, 5) = 75`. -/
theorem calculateDeliveryCost_spec (d f : Rat) (hd : 0 ≤ d) (hf : 0 ≤ f) :
    (d ≤ f → calculateDeliveryCost d f 50 = 0)
    ∧ (f < d → calculateDeliveryCost d f 50 = 50 + ((round (5 * (d - f)) : Int) : Rat))
    ∧ 0 ≤ calculateDeliveryCost d f 50
    ∧ calculateDeliveryCost 3 5 50 = 0
    ∧ calculateDeliveryCost 10 5 50 = 75 := by
  refine ⟨?_, ?_, ?_,
    by rw [calculateDeliveryCost, if_pos (by norm_num)],
    by
      rw [calculateDeliveryCost, if_neg (by norm_num),
        show ((10 : Rat) - 5) * 5 = ((25 : Int) : Rat) from by norm_num,
        round_intCast]
      norm_num⟩
  · intro h
    simp [calculateDeliveryCost, h]
  · intro h
    rw [calculateDeliveryCost, if_neg (by exact not_le.mpr h), mul_comm]
  · by_cases h : d ≤ f
    · simp [calculateDeliveryCost, h]
    · rw [calculateDeliveryCost, if_neg h]
      have hpos : (0 : Rat) ≤ (d - f) * 5 := by
        have := not_le.mp h
        nlinarith
      have hr : (0 : Int) ≤ round ((d - f) * 5) := by
        rw [round_eq]
        exact Int.le_floor.mpr (by push_cast; linarith)
      have : (0 : Rat) ≤ ((round ((d - f) * 5) : Int) : Rat) := by
        exact_mod_cast hr
      linarith

/-- Witness for C6 at the spec's concrete instances. -/
theorem calculateDeliveryCost_spec_witness :
    calculateDeliveryCost 3 5 50 = 0 ∧ calculateDeliveryCost 10 5 50 = 75 :=
  ⟨(calculateDeliveryCost_spec 3 5 (by norm_num) (by norm_num)).2.2.2.1,
   (calculateDeliveryCost_spec 10 5 (by norm_num) (by norm_num)).2.2.2.2⟩

/-- Invariant of the inner scan: starting from best index `best` and current
minimum `m`, the scan either keeps `best` (when no remaining element beats
`m`) or returns the offset of the first strict minimum of the remaining
list. -/
theorem findNearestAux_spec {α : Type} (dist : α → Real) :
    ∀ (l : List α) (i best : Nat) (m : Real),
      (findNearestAux dist l i best (some m) = best ∧
        ∀ (k : Nat) (hk : k < l.length), m ≤ dist (l.get ⟨k, hk⟩))
      ∨ (∃ (k : Nat) (hk : k < l.length),
          findNearestAux dist l i best (some m) = i + k ∧
          dist (l.get ⟨k, hk⟩) < m ∧
          (∀ (k2 : Nat) (hk2 : k2 < l.length),
            dist (l.get ⟨k, hk⟩) ≤ dist (l.get ⟨k2, hk2⟩)) ∧
          (∀ (k2 : Nat) (hk2 : k2 < l.length), k2 < k →
            dist (l.get ⟨k, hk⟩) < dist (l.get ⟨k2, hk2⟩))) := by
  intro l
  induction l with
  | nil =>
    intro i best m
    left
    refine ⟨rfl, ?_⟩
    intro k hk
    simp at hk
  | cons x rest ih =>
    intro i best m
    by_cases hlt : dist x < m
    · have heq : findNearestAux dist (x :: rest) i best (some m)
          = findNearestAux dist rest (i + 1) i (some (dist x)) := by
        simp [findNearestAux, hlt]
      rcases ih (i + 1) i (dist x) with ⟨hres, hall⟩ | ⟨k, hk, hres, hklt, hle, hstrict⟩
      · right
        refine ⟨0, by simp, ?_, hlt, ?_, ?_⟩
        · rw [heq, hres]
          omega
        · intro k2 hk2
          cases k2 with
          | zero => exact le_refl _
          | succ k2 => exact hall k2 (by simpa using hk2)
        · intro k2 hk2 hk20
          exact absurd hk20 (Nat.not_lt_zero k2)
      · right
        refine ⟨k + 1, by simpa using Nat.succ_lt_succ hk, ?_, lt_trans hklt hlt, ?_, ?_⟩
        · rw [heq, hres]
          omega
        · intro k2 hk2
          cases k2 with
          | zero => exact le_of_lt hklt
          | succ k2 => exact hle k2 (by simpa using hk2)
        · intro k2 hk2 hlt2
          cases k2 with
          | zero => exact hklt
          | succ k2 => exact hstrict k2 (by simpa using hk2) (by omega)
    · have heq : findNearestAux dist (x :: rest) i best (some m)
          = findNearestAux dist rest (i + 1) best (some m) := by
        simp [findNearestAux, hlt]
      have hxm : m ≤ dist x := not_lt.mp hlt
      rcases ih (i + 1) best m with ⟨hres, hall⟩ | ⟨k, hk, hres, hklt, hle, hstrict⟩
      · left
        refine ⟨by rw [heq, hres], ?_⟩
        intro k hk2
        cases k with
        | zero => exact hxm
        | succ k => exact hall k (by simpa using hk2)
      · right
        refine ⟨k + 1, by simpa using Nat.succ_lt_succ hk, ?_, hklt, ?_, ?_⟩
        · rw [heq, hres]
          omega
        · intro k2 hk2
          cases k2 with
          | zero => exact le_of_lt (lt_of_lt_of_le hklt hxm)
          | succ k2 => exact hle k2 (by simpa using hk2)
        · intro k2 hk2 hlt2
          cases k2 with
          | zero => exact lt_of_lt_of_le hklt hxm
          | succ k2 => exact hstrict k2 (by simpa using hk2) (by omega)

/-- The scan over a non-empty list returns an in-range index of a first
minimum. -/
theorem findNearestIdx_isFirstMin {α : Type} (dist : α → Real) (x : α)
    (rest : List α) :
    IsFirstMin dist (x :: rest) (findNearestIdx dist (x :: rest)) := by
  have hidx : findNearestIdx dist (x :: rest)
      = findNearestAux dist rest 1 0 (some (dist x)) := by
    simp [findNearestIdx, findNearestAux]
  rcases findNearestAux_spec dist rest 1 0 (dist x) with
    ⟨hres, hall⟩ | ⟨k, hk, hres, hklt, hle, hstrict⟩
  · rw [hidx, hres]
    refine ⟨by simp, ?_, ?_⟩
    · intro i hi
      cases i with
      | zero => exact le_refl _
      | succ i => exact hall i (by simpa using hi)
    · intro i hi hlt
      exact absurd hlt (Nat.not_lt_zero i)
  · rw [hidx, hres, Nat.add_comm 1 k]
    refine ⟨by simpa using Nat.succ_lt_succ hk, ?_, ?_⟩
    · intro i hi
      cases i with
      | zero => exact le_of_lt hklt
      | succ i => exact hle i (by simpa using hi)
    · intro i hi hlt
      cases i with
      | zero => exact hklt
      | succ i => exact hstrict i (by simpa using hi) (by omega)

/-- Moving the element at index `j` to the front of the remainder is a
permutation of the list. -/
theorem get_cons_eraseIdx_perm {α : Type} :
    ∀ (l : List α) (j : Nat) (hj : j < l.length),
      (l.get ⟨j, hj⟩ :: l.eraseIdx j).Perm l := by
  intro l
  induction l with
  | nil => intro j hj; simp at hj
  | cons x rest ih =>
    intro j hj
    cases j with
    | zero => exact List.Perm.refl _
    | succ n =>
      have hn : n < rest.length := by simpa using hj
      exact (List.Perm.swap x (rest.get ⟨n, hn⟩) (rest.eraseIdx n)).trans
        ((ih n hn).cons x)

/-- The while-loop emits a nearest-neighbour ordering of, and a permutation
of, its unvisited list. -/
theorem routeLoop_spec {α : Type} (dist : α → α → Real) :
    ∀ (n : Nat) (c : α) (l : List α), l.length ≤ n →
      NearestNeighborFrom dist c l (routeLoop dist c l)
      ∧ (routeLoop dist c l).Perm l := by
  intro n
  induction n with
  | zero =>
    intro c l hl
    have hnil : l = [] := List.length_eq_zero.mp (Nat.le_zero.mp hl)
    subst hnil
    rw [show routeLoop dist c [] = [] from by rw [routeLoop]]
    exact ⟨NearestNeighborFrom.nil c, List.Perm.refl []⟩
  | succ n ih =>
    intro c l hl
    match l with
    | [] =>
      rw [show routeLoop dist c [] = [] from by rw [routeLoop]]
      exact ⟨NearestNeighborFrom.nil c, List.Perm.refl []⟩
    | x :: rest =>
      obtain ⟨hj, hle, hstrict⟩ := findNearestIdx_isFirstMin (dist c) x rest
      have heq : routeLoop dist c (x :: rest)
          = (x :: rest).get ⟨findNearestIdx (dist c) (x :: rest), hj⟩ ::
            routeLoop dist
              ((x :: rest).get ⟨findNearestIdx (dist c) (x :: rest), hj⟩)
              ((x :: rest).eraseIdx (findNearestIdx (dist c) (x :: rest))) := by
        rw [routeLoop, dif_pos hj]
      have hlen : ((x :: rest).eraseIdx (findNearestIdx (dist c) (x :: rest))).length ≤ n := by
        rw [List.length_eraseIdx_of_lt hj]
        simp only [List.length_cons] at hl ⊢
        omega
      obtain ⟨hnn, hperm⟩ := ih _ _ hlen
      constructor
      · rw [heq]
        exact NearestNeighborFrom.cons c (x :: rest) _ hj _ hle hstrict hnn
      · rw [heq]
        exact (hperm.cons _).trans (get_cons_eraseIdx_perm (x :: rest) _ hj)

/-- A list of length at most 1 is trivially in nearest-neighbour order from
any starting point. -/
theorem nearestNeighborFrom_short {α : Type} (dist : α → α → Real) (c : α) :
    ∀ l : List α, l.length ≤ 1 → NearestNeighborFrom dist c l l := by
  intro l hlen
  match l with
  | [] => exact NearestNeighborFrom.nil c
  | [q] =>
    refine NearestNeighborFrom.cons c [q] 0 (by simp) [] ?_ ?_ ?_
    · intro i hi
      have : i = 0 := by simpa using Nat.lt_one_iff.mp (by simpa using hi)
      subst this
      exact le_refl _
    · intro i hi hlt
      exact absurd hlt (Nat.not_lt_zero i)
    · exact NearestNeighborFrom.nil q
  | _ :: _ :: _ => simp at hlen

/-- C4: `calculateOptimalRoute` returns a permutation of its input; inputs of
length at most 2 are returned unchanged; and on any non-empty input the route
starts at the first input point and proceeds by nearest-neighbour selection
over the remaining points (closest by `calculateDistance`, lowest input index
on ties), as stated by `NearestNeighborFrom`. -/
theorem calculateOptimalRoute_spec (points : List GeoPoint) :
    (calculateOptimalRoute points).Perm points
    ∧ (points.length ≤ 2 → calculateOptimalRoute points = points)
    ∧ ∀ p rest, points = p :: rest →
        calculateOptimalRoute points = p :: (calculateOptimalRoute points).tail
        ∧ NearestNeighborFrom pointDist p rest ((calculateOptimalRoute points).tail) := by
  by_cases h2 : points.length ≤ 2
  · have heq : calculateOptimalRoute points = points := by
      unfold calculateOptimalRoute
      rw [if_pos h2]
    refine ⟨by rw [heq], fun _ => heq, ?_⟩
    intro p rest hpr
    subst hpr
    rw [heq]
    refine ⟨rfl, ?_⟩
    show NearestNeighborFrom pointDist p rest rest
    exact nearestNeighborFrom_short pointDist p rest
      (by simp only [List.length_cons] at h2; omega)
  · cases points with
    | nil => simp at h2
    | cons p0 rest0 =>
      have heq : calculateOptimalRoute (p0 :: rest0)
          = p0 :: routeLoop pointDist p0 rest0 := by
        unfold calculateOptimalRoute
        rw [if_neg h2]
      obtain ⟨hnn, hperm⟩ := routeLoop_spec pointDist rest0.length p0 rest0 (le_refl _)
      refine ⟨by rw [heq]; exact hperm.cons p0, fun hc => absurd hc h2, ?_⟩
      intro p rest hpr
      injection hpr with hp hrest
      subst hp
      subst hrest
      rw [heq]
      exact ⟨rfl, hnn⟩

/-- Witness for C4 at a concrete singleton input. -/
theorem calculateOptimalRoute_spec_witness :
    calculateOptimalRoute [{ latitude := 0, longitude := 0 }] =
      [{ latitude := 0, longitude := 0 }]
    ∧ NearestNeighborFrom pointDist { latitude := 0, longitude := 0 } []
        ((calculateOptimalRoute [{ latitude := 0, longitude := 0 }]).tail) := by
  have h := calculateOptimalRoute_spec [{ latitude := 0, longitude := 0 }]
  exact ⟨h.2.1 (by simp), (h.2.2 _ [] rfl).2⟩

/-- C10: on an existing seller, `addReview` replaces it in place with a
document whose ratings count is incremented, whose average is the running
average `(a*n + r) / (n+1)`, and whose review list is the old list with
exactly one new entry appended; consequently the invariant "`count` is the
number of reviews and `average` is their arithmetic mean" is preserved (in
exact arithmetic). -/
theorem addReview_spec (now : Time) (sellers : List LocalSeller)
    (sellerId userId : String) (rating : Rat) (comment : Option String) :
    (sellers.find? (fun s => s.id == sellerId) = none →
      addReview now sellers sellerId userId rating comment =
        Except.error "Seller not found")
    ∧ ∀ s, sellers.find? (fun s => s.id == sellerId) = some s →
        ∃ i : Nat, ∃ hi : i < sellers.length, sellers.get ⟨i, hi⟩ = s ∧
          addReview now sellers sellerId userId rating comment =
            Except.ok (sellers.set i (addReviewUpdate now userId rating comment s)) ∧
          (addReviewUpdate now userId rating comment s).ratings.count =
            s.ratings.count + 1 ∧
          (addReviewUpdate now userId rating comment s).ratings.average =
            (s.ratings.average * (s.ratings.count : Rat) + rating) /
              ((s.ratings.count : Rat) + 1) ∧
          (addReviewUpdate now userId rating comment s).ratings.reviews =
            s.ratings.reviews ++
              [{ userId := userId, rating := rating, comment := comment,
                 createdAt := now }] ∧
          (RatingsInvariant s.ratings →
            RatingsInvariant (addReviewUpdate now userId rating comment s).ratings) := by
  constructor
  · intro h
    simp [addReview, h]
  · intro s h
    obtain ⟨i, hi, hget, hupd⟩ :=
      find?_updateFirst (fun s => s.id == sellerId)
        (addReviewUpdate now userId rating comment) sellers s h
    refine ⟨i, hi, hget, by simp [addReview, h, hupd], rfl, rfl, rfl, ?_⟩
    rintro ⟨hcount, havg⟩
    constructor
    · simp [addReviewUpdate, hcount]
    · intro _
      show (s.ratings.average * (s.ratings.count : Rat) + rating) /
          ((s.ratings.count : Rat) + 1) = _
      have hsum : ((s.ratings.reviews ++
          [({ userId := userId, rating := rating, comment := comment,
              createdAt := now } : Review)]).map Review.rating).sum =
          (s.ratings.reviews.map Review.rating).sum + rating := by
        simp
      rcases Nat.eq_zero_or_pos s.ratings.count with h0 | hpos
      · have hrev : s.ratings.reviews = [] :=
          List.length_eq_zero.mp (h0 ▸ hcount).symm
        simp [addReviewUpdate, h0, hrev]
      · have havg2 := havg hpos
        have hne : ((s.ratings.count : Rat)) ≠ 0 :=
          Nat.cast_ne_zero.mpr (Nat.pos_iff_ne_zero.mp hpos)
        simp only [addReviewUpdate, hsum, havg2]
        push_cast
        field_simp

/-- Witness for C10 at a concrete seller with one prior review: the review is
appended, the running average is exact, and the mean invariant carries over. -/
theorem addReview_spec_witness :
    addReview 5 [seller1] "s1" "u2" 5 none =
      Except.ok [addReviewUpdate 5 "u2" 5 none seller1]
    ∧ RatingsInvariant (addReviewUpdate 5 "u2" 5 none seller1).ratings := by
  obtain ⟨i, hi, _, hok, _, _, _, hinv⟩ :=
    (addReview_spec 5 [seller1] "s1" "u2" 5 none).2 seller1 (by decide)
  have hi1 : i < 1 := by simpa using hi
  have hi0 : i = 0 := by omega
  subst hi0
  refine ⟨by simpa using hok, hinv ?_⟩
  constructor
  · decide
  · intro _
    norm_num [seller1]

end Maala
